import Mathlib

/-!
Verification development for the engine-analysis coordinator of the
smart-chessboard repository.  The JavaScript sources are shallowly embedded:
pure computations become Lean functions, the stateful coordinator pieces
become explicit state-passing functions, JS numbers carrying engine scores
are modelled by `Int` (centipawns) and `ℚ` (pawns, after the `/ 100`
conversion), JS `undefined`/`null` by `Option`, and thrown errors by
`Except String`.
-/

namespace SmartChess

/-- First index of `key` in a token list, mimicking JS `Array.prototype.indexOf`
(`none` stands for the JS result `-1`). -/
def idxOf? (key : String) : List String → Option Nat
  | [] => none
  | t :: ts => if t = key then some 0 else (idxOf? key ts).map (· + 1)

/-- Digit-string parser used to model JS `Number(...)` on integer tokens. -/
def parseDigits? : List Char → Option Nat
  | [] => none
  | cs => cs.foldl (fun acc c =>
      match acc with
      | none => none
      | some n => if c.isDigit then some (n * 10 + (c.toNat - '0'.toNat)) else none)
      (some 0)

/-- Model of JS `Number(tok)` restricted to (optionally negated) integer
tokens: `none` stands for `NaN` (a non-finite result), so a guard
`Number.isFinite(n)` in the source corresponds to this being `some`. -/
def jsNumber? (s : String) : Option Int :=
  match s.data with
  | '-' :: rest => (parseDigits? rest).map (fun n => -(n : Int))
  | cs => (parseDigits? cs).map (fun n => (n : Int))

/-- Tagged score union produced by `parseInfoLine`: `{type: 'cp'|'mate', value}`. -/
inductive Score where
  | cp (value : Int)
  | mate (value : Int)
deriving DecidableEq, Repr

/-- Structured record returned by `parseInfoLine` (client-side-engine.js:20-61
and the identical copy in `src/unnamed/part_001:320-361`).  A field that the
JS code leaves `undefined` is `none` here.  The record keeps the token list in
`raw` in place of the raw text. -/
structure InfoRecord where
  depth : Option Int
  seldepth : Option Int
  multipv : Int
  nodes : Option Int
  nps : Option Int
  time : Option Int
  score : Option Score
  pv : List String
  raw : List String
deriving DecidableEq, Repr

/-- The `getNum` closure of `parseInfoLine`: look up `key`, and when a next
token exists return its numeric value provided it is finite. -/
def getNumTok (tokens : List String) (key : String) : Option Int :=
  match idxOf? key tokens with
  | some i => if i + 1 < tokens.length then jsNumber? (tokens.getD (i + 1) "") else none
  | none => none

/-- Score parsing inside `parseInfoLine`: the two tokens following `score`
select the variant; an unrecognized type or a non-finite value leaves the
score unset (`none`). -/
def parseScoreTok (tokens : List String) : Option Score :=
  match idxOf? "score" tokens with
  | some si =>
    if si + 2 < tokens.length then
      let ty := tokens.getD (si + 1) ""
      let valRaw := tokens.getD (si + 2) ""
      if ty = "cp" then (jsNumber? valRaw).map Score.cp
      else if ty = "mate" then (jsNumber? valRaw).map Score.mate
      else none
    else none
  | none => none

/-- Principal-variation extraction of `parseInfoLine`: all tokens after `pv`. -/
def parsePvTok (tokens : List String) : List String :=
  match idxOf? "pv" tokens with
  | some pvi => if pvi + 1 < tokens.length then tokens.drop (pvi + 1) else []
  | none => []

/-- `parseInfoLine`, embedded at the level of the whitespace-split token list
of the input line (the JS function first does `text.trim().split(/\s+/)`).
It is a total Lean function: every operation it performs (`indexOf`, indexed
access, `Number` conversion) is total, which embeds the source property that
the parser never throws. -/
def parseInfoLine (tokens : List String) : InfoRecord :=
  { depth := getNumTok tokens "depth"
    seldepth := getNumTok tokens "seldepth"
    multipv := (getNumTok tokens "multipv").getD 1
    nodes := getNumTok tokens "nodes"
    nps := getNumTok tokens "nps"
    time := getNumTok tokens "time"
    score := parseScoreTok tokens
    pv := parsePvTok tokens
    raw := tokens }

/-- Side to move of the pre-move position, `chess.turn()` in the sources. -/
inductive Turn where
  | white
  | black
deriving DecidableEq, Repr

/-- The part of one terminal analysis result that `analyzeMove` consumes:
the `info` field may be `null` (no info line arrived), and its `score`
field may itself be `undefined`. -/
structure ResultInfo where
  score : Option Score
deriving DecidableEq, Repr

/-- Derived move evaluation as built by both `analyzeMove` variants.  Scores
are in pawns (`value / 100`), kept as rationals. -/
structure MoveEvaluation where
  pre_move_score : ℚ
  post_move_score : ℚ
  best_move_score : ℚ
  score_diff : ℚ
  best_move_score_diff : ℚ
  score_diff_norm : ℚ
  best_move_score_diff_norm : ℚ
  blunder : Bool
  turn : Turn
deriving DecidableEq, Repr

/-- Validation shared verbatim by the two `analyzeMove` variants
(client-side-engine.js:237-243 and part_001:604-610): a `null` info fails
with the incomplete-analysis error; a missing or non-centipawn score fails
with an error as well (a missing score makes the JS `.score.type` access
throw, a mate score trips the explicit type check). -/
def extractCps (startInfo endInfo bestInfo : Option ResultInfo) :
    Except String (Int × Int × Int) :=
  match startInfo, endInfo, bestInfo with
  | some si, some ei, some bi =>
    match si.score, ei.score, bi.score with
    | some (Score.cp scp), some (Score.cp ecp), some (Score.cp bcp) =>
        Except.ok (scp, ecp, bcp)
    | _, _, _ => Except.error "Invalid score type in analysis info"
  | _, _, _ => Except.error "Failed to get complete analysis info"

/-- Score-delta computation of the pooled variant (part_001:612-622).  Note
the normalization step is the identity for both sides:
`turn === 'w' ? score_diff : score_diff`. -/
def mkEvalPooled (turn : Turn) (preCp postCp bestCp : Int) (blunderThreshold : ℚ) :
    MoveEvaluation :=
  let pre_move_score : ℚ := (preCp : ℚ) / 100
  let post_move_score : ℚ := (postCp : ℚ) / 100
  let best_move_score : ℚ := (bestCp : ℚ) / 100
  let score_diff := post_move_score - pre_move_score
  let best_move_score_diff := best_move_score - pre_move_score
  let score_diff_norm := match turn with
    | Turn.white => score_diff
    | Turn.black => score_diff
  let best_move_score_diff_norm := match turn with
    | Turn.white => best_move_score_diff
    | Turn.black => best_move_score_diff
  { pre_move_score, post_move_score, best_move_score,
    score_diff, best_move_score_diff, score_diff_norm, best_move_score_diff_norm,
    blunder := decide (score_diff_norm ≤ -blunderThreshold) &&
               decide (best_move_score_diff_norm ≥ -blunderThreshold),
    turn }

/-- Score-delta computation of the single-worker variant
(client-side-engine.js:245-256): the deltas are negated when Black is to
move (`turn === 'w' ? score_diff : -score_diff`). -/
def mkEvalSingle (turn : Turn) (preCp postCp bestCp : Int) (blunderThreshold : ℚ) :
    MoveEvaluation :=
  let pre_move_score : ℚ := (preCp : ℚ) / 100
  let post_move_score : ℚ := (postCp : ℚ) / 100
  let best_move_score : ℚ := (bestCp : ℚ) / 100
  let score_diff := post_move_score - pre_move_score
  let best_move_score_diff := best_move_score - pre_move_score
  let score_diff_norm := match turn with
    | Turn.white => score_diff
    | Turn.black => -score_diff
  let best_move_score_diff_norm := match turn with
    | Turn.white => best_move_score_diff
    | Turn.black => -best_move_score_diff
  { pre_move_score, post_move_score, best_move_score,
    score_diff, best_move_score_diff, score_diff_norm, best_move_score_diff_norm,
    blunder := decide (score_diff_norm ≤ -blunderThreshold) &&
               decide (best_move_score_diff_norm ≥ -blunderThreshold),
    turn }

/-- The score-comparison core of the pooled `analyzeMove` (part_001:564-645),
as a function of the side to move, the three terminal results' info parts and
the blunder threshold. -/
def analyzeMovePooled (turn : Turn) (startInfo endInfo bestInfo : Option ResultInfo)
    (blunderThreshold : ℚ) : Except String MoveEvaluation :=
  (extractCps startInfo endInfo bestInfo).map
    (fun cps => mkEvalPooled turn cps.1 cps.2.1 cps.2.2 blunderThreshold)

/-- The score-comparison core of the single-worker `analyzeMove`
(client-side-engine.js:201-277). -/
def analyzeMoveSingle (turn : Turn) (startInfo endInfo bestInfo : Option ResultInfo)
    (blunderThreshold : ℚ) : Except String MoveEvaluation :=
  (extractCps startInfo endInfo bestInfo).map
    (fun cps => mkEvalSingle turn cps.1 cps.2.1 cps.2.2 blunderThreshold)

/-- Depth bounding applied by both `analyze` variants
(`Math.max(6, Math.min(30, Number(depth) || 16))`, part_001:545 and
client-side-engine.js:197).  The argument is `none` when `Number(depth)` is
`NaN` (non-numeric input); `NaN || 16` and `0 || 16` both yield `16`. -/
def boundedDepth (depth : Option Int) : Int :=
  let n : Int := match depth with
    | none => 16
    | some v => if v = 0 then 16 else v
  max 6 (min 30 n)

/-- State of the pooled coordinator's result cache and dispatcher queue
(part_001).  `cache` is the curried view of the nested JS object
`cache[fen][depth]`, holding the identifier of the future stored there;
`queue` is the list of jobs `{fen, depth}` ever pushed to the FIFO queue by
`analyze` (the dispatcher only consumes it, so for deduplication claims the
submission log is the faithful view); `nextId` supplies fresh future ids. -/
structure PooledState where
  cache : String → Int → Option Nat
  queue : List (String × Int)
  nextId : Nat

/-- The cache-and-queue effect of the pooled `analyze` (part_001:540-562):
reject an empty fingerprint, clamp the depth, serve an existing entry for
`(fen, boundedDepth)` from the cache, and otherwise store a fresh pending
future under that exact key and push one job.  Returns the future id the
caller is given. -/
def pooledAnalyze (s : PooledState) (fen : String) (depth : Option Int) :
    Except String (PooledState × Nat) :=
  if fen = "" then Except.error "analyze() requires a FEN or startpos"
  else
    let d := boundedDepth depth
    match s.cache fen d with
    | some e => Except.ok (s, e)
    | none =>
        let e := s.nextId
        Except.ok
          ({ cache := fun f dd => if f = fen ∧ dd = d then some e else s.cache f dd
             queue := s.queue ++ [(fen, d)]
             nextId := e + 1 }, e)

/-- State of `StockfishEngine.analyzePosition`'s result cache
(stockfish-js-engine.js): `analyzeCache` maps the cache hash (which
concatenates start position, move list and depth) to the id of the stored
job's promise; `enqueued` is the log of search tasks handed to the
`AsyncQueue`. -/
structure SEState where
  analyzeCache : String → Option Nat
  enqueued : List String
  nextId : Nat

/-- The cache-and-queue effect of `StockfishEngine.analyzePosition`
(stockfish-js-engine.js:349-399): a cache hit (pending or complete) returns
the stored job's promise and enqueues nothing; a miss stores a fresh job
under the hash and enqueues one search task. -/
def seAnalyzePosition (s : SEState) (cacheHash : String) : SEState × Nat :=
  match s.analyzeCache cacheHash with
  | some j => (s, j)
  | none =>
      let j := s.nextId
      ({ analyzeCache := fun h => if h = cacheHash then some j else s.analyzeCache h
         enqueued := s.enqueued ++ [cacheHash]
         nextId := j + 1 }, j)

/-- Completed snapshot as stored in the single-worker cache; only the final
info's depth matters for the claims, the rest is abstracted away. -/
structure Snapshot where
  infoDepth : Option Int
deriving DecidableEq, Repr

/-- Outcome of a single-worker `analyze` call: either a cached snapshot was
returned with no engine interaction, or a new search was started with the
given `go depth` argument. -/
inductive SingleOutcome where
  | cached (snap : Snapshot)
  | searching (goDepth : Int)
deriving DecidableEq, Repr

/-- State of the single-worker engine (client-side-engine.js): the cache maps
a fingerprint alone to a completed snapshot (it is only written on
`bestmove`), and `currentFen` tracks the position bound to the worker. -/
structure SingleState where
  cache : String → Option Snapshot
  currentFen : Option String

/-- The cache-and-search decision of the single-worker `analyze`
(client-side-engine.js:151-199): the lookup `fen in cache` ignores the
requested depth entirely; on a hit the cached snapshot is returned and no
command is sent; on a miss any previous search is cancelled and a new search
is started at the clamped depth. -/
def singleAnalyze (s : SingleState) (fen : String) (depth : Option Int) :
    Except String (SingleState × SingleOutcome) :=
  if fen = "" then Except.error "analyze() requires a FEN or startpos"
  else
    match s.cache fen with
    | some snap => Except.ok (s, SingleOutcome.cached snap)
    | none =>
        Except.ok ({ s with currentFen := some fen },
                   SingleOutcome.searching (boundedDepth depth))

/-- Score-type tag carried by an info record, for the completion handlers. -/
inductive ScoreKind where
  | cp
  | mate
deriving DecidableEq, Repr

/-- The slice of a progress info record that the two `bestmove` completion
handlers inspect: its depth (possibly `undefined`) and its score type
(`none` models both a `null` score type and an absent score). -/
structure SEInfo where
  depth : Option Int
  scoreKind : Option ScoreKind
deriving DecidableEq, Repr

/-- Result of `StockfishEngine.analyzePosition`'s completion handler:
whether the cache entry survives, and the info the promise is resolved with
(`none` means the promise is rejected with the depth-not-reached message). -/
structure SEDone where
  entryKept : Bool
  resolvedWith : Option SEInfo
deriving DecidableEq, Repr

/-- The `bestmove` completion handler of `StockfishEngine.analyzePosition`
(stockfish-js-engine.js:385-396): the result is accepted iff a final info
exists and its depth equals the requested depth or its score is a mate
score; otherwise `analyzeCache[cacheHash]` is nulled out and the promise is
rejected. -/
def seOnBestmove (requested : Int) (latestInfo : Option SEInfo) : SEDone :=
  match latestInfo with
  | some info =>
      if info.depth = some requested ∨ info.scoreKind = some ScoreKind.mate then
        { entryKept := true, resolvedWith := some info }
      else
        { entryKept := false, resolvedWith := none }
  | none => { entryKept := false, resolvedWith := none }

/-- Result of the pooled variant's `bestmove` handler: the depth key the
snapshot is cached under, and whether the job's promise was resolved with
the final snapshot. -/
structure PooledDone where
  cacheDepthKey : Int
  resolvedDone : Bool
deriving DecidableEq, Repr

/-- The `bestmove` branch of the pooled worker's `onmessage`
(part_001:432-458): the snapshot is written to
`cache[fen][info?.depth ?? job.depth]` and the job's promise is always
resolved with it — there is no depth check and no rejection path. -/
def pooledOnBestmove (jobDepth : Int) (lastInfo : Option SEInfo) : PooledDone :=
  { cacheDepthKey := match lastInfo with
      | some info => info.depth.getD jobDepth
      | none => jobDepth
    resolvedDone := true }

/-- Settlement state of a caller-visible future (promise). -/
inductive FutureState where
  | pending
  | resolved
  | rejectedStopped
deriving DecidableEq, Repr

/-- One worker slot of the pool: the future id of the job bound to it (the
`current` closure variable) and its busy flag. -/
structure Slot where
  currentJob : Option Nat
  busy : Bool
deriving DecidableEq, Repr

/-- Coordinator state for the stop model: future ids of the
queued-but-unassigned jobs, the worker slots, and the settlement state of
every future. -/
structure CoordState where
  queue : List Nat
  slots : List Slot
  futures : Nat → FutureState

/-- A slot's `stop()` (part_001:491-498): posts `stop` to the worker, rejects
the currently bound job's promise with the `stopped` error if one exists,
clears the binding and the busy flag. -/
def slotStop (futures : Nat → FutureState) (sl : Slot) : (Nat → FutureState) × Slot :=
  match sl.currentJob with
  | some j =>
      (fun k => if k = j then FutureState.rejectedStopped else futures k,
       { currentJob := none, busy := false })
  | none => (futures, { sl with busy := false })

/-- Sequential `for (const s of slots) s.stop()`. -/
def slotsStop (futures : Nat → FutureState) : List Slot → (Nat → FutureState) × List Slot
  | [] => (futures, [])
  | sl :: rest =>
      let p := slotStop futures sl
      let q := slotsStop p.1 rest
      (q.1, p.2 :: q.2)

/-- The pooled coordinator's `stop()` (part_001:687-690): `queue.length = 0`
truncates the pending queue — without settling the queued jobs' promises —
and then stops every slot. -/
def coordStop (s : CoordState) : CoordState :=
  let p := slotsStop s.futures s.slots
  { queue := [], slots := p.2, futures := p.1 }

/-- Move object `{from, to, promotion}`; squares are character lists standing
for the JS strings (`from` is a reserved word in Lean, hence `fromSq`/`toSq`).
An absent/`undefined` promotion is `none`; both JS variants (part_001:295-300
always materializes the key, stockfish-js-engine.js:622-631 adds it only when
present) behave identically under the truthiness test this models. -/
structure Move where
  fromSq : List Char
  toSq : List Char
  promotion : Option Char
deriving DecidableEq, Repr

/-- `move_to_uci` (part_001:302-308, identical in stockfish-js-engine.js and
engine.js): concatenate the squares and append the promotion piece when the
field is truthy. -/
def move_to_uci (m : Move) : List Char :=
  m.fromSq ++ m.toSq ++ (match m.promotion with
    | some c => [c]
    | none => [])

/-- `uci_to_move` (part_001:295-300): `slice(0,2)`, `slice(2,4)`, and the
fifth character when the string is longer than four characters. -/
def uci_to_move (uci : List Char) : Move :=
  { fromSq := uci.take 2
    toSq := (uci.drop 2).take 2
    promotion := if 4 < uci.length then uci[4]? else none }

/-- JS `String.prototype.split(' ')` on a character list: split on every
single space, keeping empty groups. -/
def splitOnSpace : List Char → List (List Char)
  | [] => [[]]
  | c :: rest =>
      let r := splitOnSpace rest
      if c = ' ' then [] :: r
      else (c :: r.headD []) :: r.tail

/-- `resolveTurn` (stockfish-js-engine.js:455-467): an empty FEN defaults to
White; otherwise the second space-separated field decides, with anything
other than `w`/`b` defaulting to White. -/
def resolveTurn (fen : List Char) : Turn :=
  if fen = [] then Turn.white
  else
    let parts := splitOnSpace fen
    if 1 < parts.length ∧ (parts.getD 1 [] = ['w'] ∨ parts.getD 1 [] = ['b']) then
      if parts.getD 1 [] = ['b'] then Turn.black else Turn.white
    else Turn.white

/-- Score object of the `Info` class: `{type: null|'cp'|'mate',
value: null|number}`. -/
structure PovScore where
  kind : Option ScoreKind
  value : Option Int
deriving DecidableEq, Repr

/-- Raw side-to-move score extraction of the `Info` constructor
(stockfish-js-engine.js:503-516): starting from `{null, null}`, the two
tokens after `score` fill it in only when the value is finite and the type
is `cp` or `mate`. -/
def parsePovScore (tokens : List String) : PovScore :=
  match idxOf? "score" tokens with
  | some si =>
      if si + 2 < tokens.length then
        let ty := tokens.getD (si + 1) ""
        match jsNumber? (tokens.getD (si + 2) "") with
        | some v =>
            if ty = "mate" then { kind := some ScoreKind.mate, value := some v }
            else if ty = "cp" then { kind := some ScoreKind.cp, value := some v }
            else { kind := none, value := none }
        | none => { kind := none, value := none }
      else { kind := none, value := none }
  | none => { kind := none, value := none }

/-- White-oriented score derivation of the `Info` constructor
(stockfish-js-engine.js:517-522): same type as the raw score; the value is
negated exactly when the side to move is Black and the raw value is
non-null. -/
def orientScore (turn : Turn) (pov : PovScore) : PovScore :=
  { kind := pov.kind
    value := match pov.value with
      | some v => some (if turn = Turn.black then -v else v)
      | none => none }

/-- The score-related fields of a constructed `Info` object. -/
structure InfoScorePart where
  turn : Turn
  povScore : PovScore
  score : PovScore
deriving DecidableEq, Repr

/-- Assembly of `Info.povScore`, `Info.turn` and `Info.score` from the token
list of the info line and the FEN of the analyzed position
(stockfish-js-engine.js:479-522). -/
def mkInfoScore (tokens : List String) (fen : List Char) : InfoScorePart :=
  let pov := parsePovScore tokens
  let turn := resolveTurn fen
  { turn, povScore := pov, score := orientScore turn pov }

/-- Deduplication invariant of the pooled coordinator: the submission log
holds no duplicate `(fingerprint, depth)` key, and every submitted key has a
cache entry. -/
def PooledInv (s : PooledState) : Prop :=
  s.queue.Nodup ∧ ∀ fd ∈ s.queue, s.cache fd.1 fd.2 ≠ none

/-- Pooled coordinator state with an empty cache and queue. -/
def emptyPooled : PooledState :=
  { cache := fun _ _ => none, queue := [], nextId := 0 }

/-- Pooled coordinator state after one `analyze("F", 20)` on the empty
state: a pending future with id `0` stored under the key `("F", 20)` and one
submitted job. -/
def pooledAfterF : PooledState :=
  { cache := fun f dd => if f = "F" ∧ dd = 20 then some 0 else none
    queue := [("F", 20)]
    nextId := 1 }

/-- Single-worker engine state whose cache holds, for fingerprint `FEN1`, a
snapshot completed by a search that reached depth 12. -/
def singleAfterDepth12 : SingleState :=
  { cache := fun f => if f = "FEN1" then some { infoDepth := some 12 } else none
    currentFen := none }

/-- Final info of a search that stopped at depth 12 with a centipawn score. -/
def shallowCpInfo : SEInfo :=
  { depth := some 12, scoreKind := some ScoreKind.cp }

/-- Coordinator state with one queued-but-unassigned job (future 0, still
pending) and one busy worker bound to future 1 (also pending). -/
def queuedAndBusy : CoordState :=
  { queue := [0]
    slots := [{ currentJob := some 1, busy := true }]
    futures := fun _ => FutureState.pending }

/-- A key that does not occur in a list is not found by `idxOf?`. -/
theorem idxOf?_eq_none_of_not_mem {key : String} :
    ∀ {tokens : List String}, key ∉ tokens → idxOf? key tokens = none := by
  intro tokens h
  induction tokens with
  | nil => rfl
  | cons t ts ih =>
      simp only [List.mem_cons, not_or] at h
      simp [idxOf?, Ne.symm h.1, ih h.2]

/-- An absent key makes the numeric-field lookup return `undefined`. -/
theorem getNumTok_eq_none_of_not_mem {tokens : List String} {key : String}
    (h : key ∉ tokens) : getNumTok tokens key = none := by
  simp [getNumTok, idxOf?_eq_none_of_not_mem h]

/-- The blunder flag of the pooled evaluation unfolds to the two threshold
comparisons on the normalized deltas. -/
theorem mkEvalPooled_blunder_iff (turn : Turn) (p q r : Int) (t : ℚ) :
    (mkEvalPooled turn p q r t).blunder = true ↔
      ((mkEvalPooled turn p q r t).score_diff_norm ≤ -t ∧
       ¬ (mkEvalPooled turn p q r t).best_move_score_diff_norm < -t) := by
  simp [mkEvalPooled, not_lt, ge_iff_le]

/-- The blunder flag of the single-worker evaluation unfolds to the two
threshold comparisons on the normalized deltas. -/
theorem mkEvalSingle_blunder_iff (turn : Turn) (p q r : Int) (t : ℚ) :
    (mkEvalSingle turn p q r t).blunder = true ↔
      ((mkEvalSingle turn p q r t).score_diff_norm ≤ -t ∧
       ¬ (mkEvalSingle turn p q r t).best_move_score_diff_norm < -t) := by
  simp [mkEvalSingle, not_lt, ge_iff_le]

/-- C1: whenever all three analyses carry centipawn scores (so `analyzeMove`
succeeds), the blunder flag is true iff the played move's normalized score
delta is at or below minus the threshold and the best alternative's
normalized delta is not below minus the threshold; in both implementations.
In particular, with pre-move +0.20, post-move −0.80, best-alternative +0.15
pawns and the default threshold 0.5 the flag is true (for any side to move
in the pooled variant, and for White in the single-worker variant). -/
theorem C1_blunder_rule :
    (∀ (turn : Turn) (si ei bi : Option ResultInfo) (t : ℚ) (ev : MoveEvaluation),
        analyzeMovePooled turn si ei bi t = Except.ok ev →
        (ev.blunder = true ↔
          (ev.score_diff_norm ≤ -t ∧ ¬ ev.best_move_score_diff_norm < -t)))
    ∧ (∀ (turn : Turn) (si ei bi : Option ResultInfo) (t : ℚ) (ev : MoveEvaluation),
        analyzeMoveSingle turn si ei bi t = Except.ok ev →
        (ev.blunder = true ↔
          (ev.score_diff_norm ≤ -t ∧ ¬ ev.best_move_score_diff_norm < -t)))
    ∧ (∀ turn : Turn,
        (analyzeMovePooled turn (some ⟨some (Score.cp 20)⟩) (some ⟨some (Score.cp (-80))⟩)
          (some ⟨some (Score.cp 15)⟩) (1/2)).map MoveEvaluation.blunder = Except.ok true)
    ∧ (analyzeMoveSingle Turn.white (some ⟨some (Score.cp 20)⟩) (some ⟨some (Score.cp (-80))⟩)
        (some ⟨some (Score.cp 15)⟩) (1/2)).map MoveEvaluation.blunder = Except.ok true := by
  refine ⟨?_, ?_, ?_, ?_⟩
  · intro turn si ei bi t ev h
    rcases hc : extractCps si ei bi with e | cps
    · simp [analyzeMovePooled, hc, Except.map] at h
    · simp [analyzeMovePooled, hc, Except.map] at h
      subst h
      exact mkEvalPooled_blunder_iff turn cps.1 cps.2.1 cps.2.2 t
  · intro turn si ei bi t ev h
    rcases hc : extractCps si ei bi with e | cps
    · simp [analyzeMoveSingle, hc, Except.map] at h
    · simp [analyzeMoveSingle, hc, Except.map] at h
      subst h
      exact mkEvalSingle_blunder_iff turn cps.1 cps.2.1 cps.2.2 t
  · intro turn
    cases turn <;>
      norm_num [analyzeMovePooled, extractCps, mkEvalPooled, Except.map]
  · norm_num [analyzeMoveSingle, extractCps, mkEvalSingle, Except.map]

/-- Witness for C1 at the spec's blunder scenario (White to move,
pre +0.20 / post −0.80 / best +0.15, threshold 0.5). -/
theorem C1_blunder_rule_witness :
    (mkEvalPooled Turn.white 20 (-80) 15 (1/2)).blunder = true ↔
      ((mkEvalPooled Turn.white 20 (-80) 15 (1/2)).score_diff_norm ≤ -(1/2) ∧
       ¬ (mkEvalPooled Turn.white 20 (-80) 15 (1/2)).best_move_score_diff_norm < -(1/2)) :=
  C1_blunder_rule.1 Turn.white (some ⟨some (Score.cp 20)⟩) (some ⟨some (Score.cp (-80))⟩)
    (some ⟨some (Score.cp 15)⟩) (1/2) (mkEvalPooled Turn.white 20 (-80) 15 (1/2)) rfl

/-- C2 counterexample: in the single-worker variant the cache lookup ignores
the requested depth.  A state whose cache holds, for fingerprint `FEN1`, a
snapshot completed at depth 12 serves a later `analyze("FEN1", 20)` straight
from the cache — same state back, no search started — and the call is
literally insensitive to the requested depth, contradicting the claim that
duplicate-work treatment requires equal depths. -/
theorem C2_counterexample :
    singleAnalyze singleAfterDepth12 "FEN1" (some 20) =
      Except.ok (singleAfterDepth12, SingleOutcome.cached { infoDepth := some 12 }) ∧
    singleAnalyze singleAfterDepth12 "FEN1" (some 12) =
      singleAnalyze singleAfterDepth12 "FEN1" (some 20) :=
  ⟨rfl, rfl⟩

/-- C2 amended: only the pooled variant keys its result cache by the pair
(fingerprint, clamped depth) — its `analyze` skips new work exactly when that
pair is occupied; the single-worker variant keys its cache by fingerprint
alone, so any hit for the fingerprint is served from the cache regardless of
the requested depth. -/
theorem C2_amended_keying :
    (∀ (s : PooledState) (fen : String) (d : Option Int) (s' : PooledState) (e : Nat),
        pooledAnalyze s fen d = Except.ok (s', e) →
        (s'.queue = s.queue ↔ s.cache fen (boundedDepth d) ≠ none))
    ∧ (∀ (s : SingleState) (fen : String) (d : Option Int) (snap : Snapshot),
        fen ≠ "" → s.cache fen = some snap →
        singleAnalyze s fen d = Except.ok (s, SingleOutcome.cached snap)) := by
  constructor
  · intro s fen d s' e h
    by_cases hfen : fen = ""
    · simp [pooledAnalyze, hfen] at h
    · rcases hc : s.cache fen (boundedDepth d) with _ | e₀
      · simp [pooledAnalyze, hfen, hc] at h
        constructor
        · intro hq
          rw [← h.1] at hq
          have := congrArg List.length hq
          simp at this
        · intro hne
          exact absurd rfl hne
      · simp [pooledAnalyze, hfen, hc] at h
        simp [← h.1, hc]
  · intro s fen d snap hfen hc
    simp [singleAnalyze, hfen, hc]

/-- Witness for C2's amended statement: the pooled state reached by one
`analyze("F", 20)` from the empty state has a longer queue (its cache had no
entry), and the single-worker depth-12 state serves a depth-30 request from
the cache. -/
theorem C2_amended_witness :
    (pooledAfterF.queue = emptyPooled.queue ↔
      emptyPooled.cache "F" (boundedDepth (some 20)) ≠ none) ∧
    singleAnalyze singleAfterDepth12 "FEN1" (some 30) =
      Except.ok (singleAfterDepth12, SingleOutcome.cached { infoDepth := some 12 }) :=
  ⟨C2_amended_keying.1 emptyPooled "F" (some 20) pooledAfterF 0 rfl,
   C2_amended_keying.2 singleAfterDepth12 "FEN1" (some 30) { infoDepth := some 12 }
     (by decide) rfl⟩

/-- C3 counterexample: a search requested at depth 20 whose final progress
record stops at depth 12 with a centipawn (non-mate) score.  The pooled
variant's `bestmove` handler still resolves the caller with the shallow
snapshot and caches it (under the achieved depth 12), where the claim
demands removal of the entry and a depth-not-reached rejection; the
`StockfishEngine` handler on the same input does reject. -/
theorem C3_counterexample :
    pooledOnBestmove 20 (some shallowCpInfo) =
      { cacheDepthKey := 12, resolvedDone := true } ∧
    seOnBestmove 20 (some shallowCpInfo) =
      { entryKept := false, resolvedWith := none } :=
  ⟨rfl, rfl⟩

/-- C3 amended: the depth-or-mate acceptance rule holds for
`StockfishEngine.analyzePosition` (result kept and resolved iff the final
record's depth equals the requested depth or its score is mate-type,
otherwise entry removed and the caller rejected, also when no info arrived
at all); the pooled variant in part_001 instead resolves and caches every
completed search unconditionally. -/
theorem C3_amended :
    (∀ (requested : Int) (info : SEInfo),
        ((info.depth = some requested ∨ info.scoreKind = some ScoreKind.mate) →
          seOnBestmove requested (some info) =
            { entryKept := true, resolvedWith := some info })
      ∧ (info.depth ≠ some requested → info.scoreKind ≠ some ScoreKind.mate →
          seOnBestmove requested (some info) =
            { entryKept := false, resolvedWith := none }))
    ∧ (∀ requested : Int,
        seOnBestmove requested none = { entryKept := false, resolvedWith := none })
    ∧ (∀ (jobDepth : Int) (lastInfo : Option SEInfo),
        (pooledOnBestmove jobDepth lastInfo).resolvedDone = true) := by
  refine ⟨fun requested info => ⟨?_, ?_⟩, fun requested => rfl, fun jobDepth lastInfo => rfl⟩
  · intro h
    simp [seOnBestmove, h]
  · intro h1 h2
    simp [seOnBestmove, h1, h2]

/-- Witness for C3's amended statement: a depth-20 request accepted because
the final record reached depth 20; a mate score accepted at depth 12; the
shallow centipawn record rejected; and the pooled handler resolving it
anyway. -/
theorem C3_amended_witness :
    seOnBestmove 20 (some { depth := some 20, scoreKind := some ScoreKind.cp }) =
      { entryKept := true, resolvedWith := some { depth := some 20, scoreKind := some ScoreKind.cp } } ∧
    seOnBestmove 20 (some { depth := some 12, scoreKind := some ScoreKind.mate }) =
      { entryKept := true, resolvedWith := some { depth := some 12, scoreKind := some ScoreKind.mate } } ∧
    seOnBestmove 20 (some shallowCpInfo) = { entryKept := false, resolvedWith := none } ∧
    (pooledOnBestmove 20 (some shallowCpInfo)).resolvedDone = true :=
  ⟨(C3_amended.1 20 _).1 (Or.inl rfl),
   (C3_amended.1 20 _).1 (Or.inr rfl),
   (C3_amended.1 20 shallowCpInfo).2 (by decide) (by decide),
   C3_amended.2.2 20 (some shallowCpInfo)⟩

/-- C4: `analyze` is idempotent per key.  In the pooled variant, a repeat of
`analyze(fen, depth)` on the state produced by the first call returns the
very same state and the very same future id (so the second caller attaches
to the existing entry, no new job is submitted, and both callers are
delivered the value of the same future); moreover the pooled deduplication
invariant — no duplicate `(fingerprint, depth)` key ever submitted — is
preserved, so at most one search per key is ever in flight.  The
`StockfishEngine` variant deduplicates the same way on its cache hash. -/
theorem C4_analyze_idempotent :
    (∀ (s : PooledState) (fen : String) (d : Option Int) (s₁ : PooledState) (e₁ : Nat),
        pooledAnalyze s fen d = Except.ok (s₁, e₁) →
        pooledAnalyze s₁ fen d = Except.ok (s₁, e₁) ∧ (PooledInv s → PooledInv s₁))
    ∧ (∀ (s : SEState) (cacheHash : String),
        seAnalyzePosition (seAnalyzePosition s cacheHash).1 cacheHash =
          seAnalyzePosition s cacheHash) := by
  constructor
  · intro s fen d s₁ e₁ h
    by_cases hfen : fen = ""
    · simp [pooledAnalyze, hfen] at h
    · rcases hc : s.cache fen (boundedDepth d) with _ | e₀
      · -- cache miss: the first call stores the future under the key and
        -- submits one job; the repeat hits that entry
        simp [pooledAnalyze, hfen, hc] at h
        obtain ⟨hs, he⟩ := h
        constructor
        · simp [pooledAnalyze, hfen, ← hs, ← he]
        · rintro ⟨hnd, hmem⟩
          have hnotin : (fen, boundedDepth d) ∉ s.queue := by
            intro hin
            exact hmem _ hin hc
          constructor
          · rw [← hs]
            simp only [List.nodup_append, List.nodup_cons, List.nodup_nil]
            exact ⟨hnd, ⟨by simp, trivial⟩, by
              simp only [List.disjoint_singleton]
              exact hnotin⟩
          · intro fd hfd
            rw [← hs] at hfd ⊢
            simp only [List.mem_append, List.mem_singleton] at hfd
            rcases hfd with hfd | hfd
            · by_cases hkey : fd.1 = fen ∧ fd.2 = boundedDepth d
              · simp [hkey]
              · simp only [hkey, if_false]
                exact hmem _ hfd
            · subst hfd
              simp
      · -- cache hit: the first call already returned the stored future and
        -- left the state unchanged
        simp [pooledAnalyze, hfen, hc] at h
        obtain ⟨hs, he⟩ := h
        subst hs
        constructor
        · simp [pooledAnalyze, hfen, hc, he]
        · exact id
  · intro s cacheHash
    rcases hc : s.analyzeCache cacheHash with _ | j₀
    · simp [seAnalyzePosition, hc]
    · simp [seAnalyzePosition, hc]

/-- Witness for C4: one `analyze("F", 20)` from the empty pooled state yields
`pooledAfterF` with future 0; the repeated call returns the same state and
future, and the deduplication invariant holds of the new state. -/
theorem C4_analyze_idempotent_witness :
    pooledAnalyze pooledAfterF "F" (some 20) = Except.ok (pooledAfterF, 0) ∧
    PooledInv pooledAfterF :=
  ⟨((C4_analyze_idempotent.1 emptyPooled "F" (some 20) pooledAfterF 0) rfl).1,
   ((C4_analyze_idempotent.1 emptyPooled "F" (some 20) pooledAfterF 0) rfl).2
     ⟨List.nodup_nil, by simp [emptyPooled]⟩⟩

/-- C5 counterexample: with Black to move and centipawn scores pre +20,
post −80, best +15 at threshold 0.5, the pooled variant (which applies no
sign flip for Black) reports a normalized delta of −1 and `blunder = true`,
while the single-worker variant (which negates the deltas for Black) reports
+1 and `blunder = false` — the two implementations are not equivalent. -/
theorem C5_counterexample :
    (analyzeMovePooled Turn.black (some ⟨some (Score.cp 20)⟩) (some ⟨some (Score.cp (-80))⟩)
        (some ⟨some (Score.cp 15)⟩) (1/2)).map MoveEvaluation.score_diff_norm =
      Except.ok (-1) ∧
    (analyzeMoveSingle Turn.black (some ⟨some (Score.cp 20)⟩) (some ⟨some (Score.cp (-80))⟩)
        (some ⟨some (Score.cp 15)⟩) (1/2)).map MoveEvaluation.score_diff_norm =
      Except.ok 1 ∧
    (analyzeMovePooled Turn.black (some ⟨some (Score.cp 20)⟩) (some ⟨some (Score.cp (-80))⟩)
        (some ⟨some (Score.cp 15)⟩) (1/2)).map MoveEvaluation.blunder =
      Except.ok true ∧
    (analyzeMoveSingle Turn.black (some ⟨some (Score.cp 20)⟩) (some ⟨some (Score.cp (-80))⟩)
        (some ⟨some (Score.cp 15)⟩) (1/2)).map MoveEvaluation.blunder =
      Except.ok false := by
  refine ⟨?_, ?_, ?_, ?_⟩ <;>
    norm_num [analyzeMovePooled, analyzeMoveSingle, extractCps, mkEvalPooled, mkEvalSingle,
      Except.map]

/-- C5 amended: the two `analyzeMove` implementations agree on the raw score
deltas for every side to move, and they compute identical evaluations
(normalized deltas and blunder flag included) when the pre-move side to move
is White; for Black the single-worker variant negates both normalized deltas
while the pooled variant leaves them unchanged. -/
theorem C5_amended :
    (∀ (si ei bi : Option ResultInfo) (t : ℚ),
        analyzeMovePooled Turn.white si ei bi t = analyzeMoveSingle Turn.white si ei bi t)
    ∧ (∀ (turn : Turn) (si ei bi : Option ResultInfo) (t : ℚ),
        (analyzeMovePooled turn si ei bi t).map MoveEvaluation.score_diff =
          (analyzeMoveSingle turn si ei bi t).map MoveEvaluation.score_diff ∧
        (analyzeMovePooled turn si ei bi t).map MoveEvaluation.best_move_score_diff =
          (analyzeMoveSingle turn si ei bi t).map MoveEvaluation.best_move_score_diff)
    ∧ (∀ (p q r : Int) (t : ℚ),
        (mkEvalSingle Turn.black p q r t).score_diff_norm =
          -(mkEvalPooled Turn.black p q r t).score_diff_norm ∧
        (mkEvalSingle Turn.black p q r t).best_move_score_diff_norm =
          -(mkEvalPooled Turn.black p q r t).best_move_score_diff_norm) := by
  refine ⟨?_, ?_, ?_⟩
  · intro si ei bi t
    rcases hc : extractCps si ei bi with e | cps <;>
      simp [analyzeMovePooled, analyzeMoveSingle, hc, Except.map, mkEvalPooled, mkEvalSingle]
  · intro turn si ei bi t
    rcases hc : extractCps si ei bi with e | cps <;>
      cases turn <;>
        simp [analyzeMovePooled, analyzeMoveSingle, hc, Except.map, mkEvalPooled, mkEvalSingle]
  · intro p q r t
    simp [mkEvalPooled, mkEvalSingle]

/-- Stopping every slot leaves each slot unbound and not busy. -/
theorem slotsStop_slots_idle (slots : List Slot) :
    ∀ (futures : Nat → FutureState), ∀ sl ∈ (slotsStop futures slots).2,
      sl.busy = false ∧ sl.currentJob = none := by
  induction slots with
  | nil => intro futures sl h; simp [slotsStop] at h
  | cons hd rest ih =>
      intro futures sl h
      simp only [slotsStop, List.mem_cons] at h
      rcases h with h | h
      · subst h
        cases hcj : hd.currentJob <;> simp [slotStop, hcj]
      · exact ih _ sl h

/-- A future already rejected by a stop stays rejected while the remaining
slots are stopped. -/
theorem slotsStop_preserves_rejected (slots : List Slot) :
    ∀ (futures : Nat → FutureState) (j : Nat),
      futures j = FutureState.rejectedStopped →
      (slotsStop futures slots).1 j = FutureState.rejectedStopped := by
  induction slots with
  | nil => intro futures j h; simpa [slotsStop] using h
  | cons hd rest ih =>
      intro futures j h
      simp only [slotsStop]
      apply ih
      cases hcj : hd.currentJob with
      | none => simpa [slotStop, hcj] using h
      | some j' =>
          by_cases hj : j = j' <;> simp [slotStop, hcj, hj, h]

/-- Every job bound to some slot is rejected by stopping all slots. -/
theorem slotsStop_rejects_bound (slots : List Slot) :
    ∀ (futures : Nat → FutureState) (sl : Slot) (j : Nat),
      sl ∈ slots → sl.currentJob = some j →
      (slotsStop futures slots).1 j = FutureState.rejectedStopped := by
  induction slots with
  | nil => intro futures sl j h; simp at h
  | cons hd rest ih =>
      intro futures sl j hmem hcur
      simp only [List.mem_cons] at hmem
      rcases hmem with hmem | hmem
      · subst hmem
        simp only [slotsStop]
        apply slotsStop_preserves_rejected
        simp [slotStop, hcur]
      · simp only [slotsStop]
        exact ih _ sl j hmem hcur

/-- A job bound to no slot keeps its settlement state when all slots are
stopped. -/
theorem slotsStop_skips_unbound (slots : List Slot) :
    ∀ (futures : Nat → FutureState) (j : Nat),
      (∀ sl ∈ slots, sl.currentJob ≠ some j) →
      (slotsStop futures slots).1 j = futures j := by
  induction slots with
  | nil => intro futures j _; simp [slotsStop]
  | cons hd rest ih =>
      intro futures j h
      simp only [slotsStop]
      rw [ih _ j (fun sl hsl => h sl (List.mem_cons_of_mem _ hsl))]
      cases hcj : hd.currentJob with
      | none => simp [slotStop, hcj]
      | some j' =>
          have : j ≠ j' := by
            intro hj
            exact h hd (List.mem_cons_self _ _) (hj ▸ hcj)
          simp [slotStop, hcj, this]

/-- C6 counterexample: stopping the coordinator with future 0 queued but
unassigned and future 1 bound to a busy worker leaves future 0 pending
forever — it is discarded with the queue, not rejected with a cancellation
error as the claim requires — while the bound future 1 is rejected. -/
theorem C6_counterexample :
    (coordStop queuedAndBusy).queue = [] ∧
    (coordStop queuedAndBusy).futures 0 = FutureState.pending ∧
    (coordStop queuedAndBusy).futures 1 = FutureState.rejectedStopped :=
  ⟨rfl, rfl, rfl⟩

/-- C6 amended: after `stop()` the pending queue is emptied with the queued
jobs' futures left unsettled (any future bound to no worker keeps its
previous state, so a pending queued future stays pending rather than being
rejected); every busy worker's bound future is rejected with the `stopped`
cancellation error; and every worker ends up idle and unbound. -/
theorem C6_amended (s : CoordState) :
    (coordStop s).queue = []
    ∧ (∀ sl ∈ (coordStop s).slots, sl.busy = false ∧ sl.currentJob = none)
    ∧ (∀ (sl : Slot) (j : Nat), sl ∈ s.slots → sl.currentJob = some j →
        (coordStop s).futures j = FutureState.rejectedStopped)
    ∧ (∀ j : Nat, (∀ sl ∈ s.slots, sl.currentJob ≠ some j) →
        (coordStop s).futures j = s.futures j) :=
  ⟨rfl,
   fun sl h => slotsStop_slots_idle s.slots s.futures sl h,
   fun sl j hmem hcur => slotsStop_rejects_bound s.slots s.futures sl j hmem hcur,
   fun j h => slotsStop_skips_unbound s.slots s.futures j h⟩

/-- Witness for C6's amended statement on the concrete one-queued-one-busy
state: queue emptied, bound future 1 rejected, unbound future 0 untouched. -/
theorem C6_amended_witness :
    (coordStop queuedAndBusy).queue = [] ∧
    (coordStop queuedAndBusy).futures 1 = FutureState.rejectedStopped ∧
    (coordStop queuedAndBusy).futures 0 = queuedAndBusy.futures 0 :=
  ⟨(C6_amended queuedAndBusy).1,
   (C6_amended queuedAndBusy).2.2.1 { currentJob := some 1, busy := true } 1
     (by simp [queuedAndBusy]) rfl,
   (C6_amended queuedAndBusy).2.2.2 0 (by decide)⟩

/-- C7: the protocol line parser is total — `parseInfoLine` is a plain
function into `InfoRecord`, every operation it performs being total, so no
input line can make it fail — and it degrades gracefully: a known key absent
from the line leaves that field `undefined` (`none`; an absent `pv` yields
the empty variation), and a score token pair whose type is neither `cp` nor
`mate`, or whose value is not a finite number, leaves the score unset
instead of raising an error. -/
theorem C7_parser_robust :
    (∀ tokens : List String,
        ("depth" ∉ tokens → (parseInfoLine tokens).depth = none) ∧
        ("seldepth" ∉ tokens → (parseInfoLine tokens).seldepth = none) ∧
        ("nodes" ∉ tokens → (parseInfoLine tokens).nodes = none) ∧
        ("nps" ∉ tokens → (parseInfoLine tokens).nps = none) ∧
        ("time" ∉ tokens → (parseInfoLine tokens).time = none) ∧
        ("score" ∉ tokens → (parseInfoLine tokens).score = none) ∧
        ("pv" ∉ tokens → (parseInfoLine tokens).pv = []))
    ∧ (∀ (tokens : List String) (si : Nat),
        idxOf? "score" tokens = some si →
        tokens.getD (si + 1) "" ≠ "cp" → tokens.getD (si + 1) "" ≠ "mate" →
        (parseInfoLine tokens).score = none)
    ∧ (∀ (tokens : List String) (si : Nat),
        idxOf? "score" tokens = some si →
        jsNumber? (tokens.getD (si + 2) "") = none →
        (parseInfoLine tokens).score = none) := by
  refine ⟨?_, ?_, ?_⟩
  · intro tokens
    refine ⟨?_, ?_, ?_, ?_, ?_, ?_, ?_⟩ <;> intro h
    · simp [parseInfoLine, getNumTok_eq_none_of_not_mem h]
    · simp [parseInfoLine, getNumTok_eq_none_of_not_mem h]
    · simp [parseInfoLine, getNumTok_eq_none_of_not_mem h]
    · simp [parseInfoLine, getNumTok_eq_none_of_not_mem h]
    · simp [parseInfoLine, getNumTok_eq_none_of_not_mem h]
    · simp [parseInfoLine, parseScoreTok, idxOf?_eq_none_of_not_mem h]
    · simp [parseInfoLine, parsePvTok, idxOf?_eq_none_of_not_mem h]
  · intro tokens si hsi h1 h2
    by_cases hlen : si + 2 < tokens.length
    · simp only [parseInfoLine, parseScoreTok, hsi]
      rw [if_pos hlen, if_neg h1, if_neg h2]
    · simp only [parseInfoLine, parseScoreTok, hsi]
      rw [if_neg hlen]
  · intro tokens si hsi hval
    by_cases hlen : si + 2 < tokens.length
    · simp only [parseInfoLine, parseScoreTok, hsi]
      rw [if_pos hlen]
      by_cases h1 : tokens.getD (si + 1) "" = "cp"
      · rw [if_pos h1, hval]; rfl
      · rw [if_neg h1]
        by_cases h2 : tokens.getD (si + 1) "" = "mate"
        · rw [if_pos h2, hval]; rfl
        · rw [if_neg h2]
    · simp only [parseInfoLine, parseScoreTok, hsi]
      rw [if_neg hlen]

/-- Witness for C7: a line with no `depth` key leaves the depth undefined; a
`score wdl` pair and a `score cp` pair with a non-numeric value both leave
the score unset. -/
theorem C7_parser_robust_witness :
    (parseInfoLine ["info", "nodes", "5"]).depth = none ∧
    (parseInfoLine ["info", "score", "wdl", "10", "nodes", "5"]).score = none ∧
    (parseInfoLine ["info", "score", "cp", "abc"]).score = none :=
  ⟨((C7_parser_robust.1 ["info", "nodes", "5"]).1) (by decide),
   C7_parser_robust.2.1 ["info", "score", "wdl", "10", "nodes", "5"] 1 rfl
     (by decide) (by decide),
   C7_parser_robust.2.2 ["info", "score", "cp", "abc"] 1 rfl rfl⟩

/-- C8: every depth argument is clamped into `[6, 30]` before being used for
the `go depth` command and, in the pooled variant, the cache key and queued
job; a `NaN` (non-numeric) or zero depth falls back to the default 16.  The
last two conjuncts tie the clamp to the two `analyze` implementations: on a
pooled cache miss the submitted job carries exactly the clamped depth, and a
single-worker search issues `go depth` with exactly the clamped depth. -/
theorem C8_depth_clamp :
    (∀ d : Option Int, 6 ≤ boundedDepth d ∧ boundedDepth d ≤ 30)
    ∧ boundedDepth none = 16
    ∧ boundedDepth (some 0) = 16
    ∧ (∀ (s : PooledState) (fen : String) (d : Option Int) (s' : PooledState) (e : Nat),
        pooledAnalyze s fen d = Except.ok (s', e) →
        s.cache fen (boundedDepth d) = none →
        s'.queue = s.queue ++ [(fen, boundedDepth d)])
    ∧ (∀ (s : SingleState) (fen : String) (d : Option Int) (s' : SingleState) (g : Int),
        singleAnalyze s fen d = Except.ok (s', SingleOutcome.searching g) →
        g = boundedDepth d) := by
  refine ⟨?_, rfl, rfl, ?_, ?_⟩
  · intro d
    constructor
    · exact le_max_left 6 _
    · exact max_le (by norm_num) (min_le_left 30 _)
  · intro s fen d s' e h hc
    by_cases hfen : fen = ""
    · simp [pooledAnalyze, hfen] at h
    · simp [pooledAnalyze, hfen, hc] at h
      simp [← h.1]
  · intro s fen d s' g h
    by_cases hfen : fen = ""
    · simp [singleAnalyze, hfen] at h
    · rcases hc : s.cache fen with _ | snap <;> simp [singleAnalyze, hfen, hc] at h
      exact h.2.symm

/-- Witness for C8: the clamp at depth 100 lands in the interval; the first
`analyze("F", 20)` on the empty pooled state queues the job at the clamped
depth 20; a single-worker miss at depth 100 searches with `go depth 30`. -/
theorem C8_depth_clamp_witness :
    (6 ≤ boundedDepth (some 100) ∧ boundedDepth (some 100) ≤ 30) ∧
    pooledAfterF.queue = emptyPooled.queue ++ [("F", boundedDepth (some 20))] ∧
    (30 : Int) = boundedDepth (some 100) :=
  ⟨C8_depth_clamp.1 (some 100),
   C8_depth_clamp.2.2.2.1 emptyPooled "F" (some 20) pooledAfterF 0 rfl rfl,
   C8_depth_clamp.2.2.2.2 { cache := fun _ => none, currentFen := none } "G" (some 100)
     { cache := fun _ => none, currentFen := some "G" } 30 rfl⟩

/-- C9: `uci_to_move` inverts `move_to_uci` on every move object whose
squares are two characters long, promotion field (one optional character)
included. -/
theorem C9_uci_roundtrip (m : Move) (hf : m.fromSq.length = 2)
    (ht : m.toSq.length = 2) : uci_to_move (move_to_uci m) = m := by
  obtain ⟨f, t, p⟩ := m
  simp only [Move.fromSq] at hf
  simp only [Move.toSq] at ht
  have htake : (f ++ (t ++ match p with | some c => [c] | none => [])).take 2 = f := by
    rw [List.take_append_eq_append_take, hf]
    simp [← hf]
  have hdrop : (f ++ (t ++ match p with | some c => [c] | none => [])).drop 2 =
      t ++ match p with | some c => [c] | none => [] := by
    rw [List.drop_append_eq_append_drop, hf]
    simp [← hf]
  have htake2 : (t ++ match p with | some c => [c] | none => []).take 2 = t := by
    rw [List.take_append_eq_append_take, ht]
    simp [← ht]
  cases p with
  | none =>
      simp only [uci_to_move, move_to_uci, List.append_assoc]
      rw [htake, hdrop, htake2]
      simp [List.length_append, hf, ht]
  | some c =>
      simp only [uci_to_move, move_to_uci, List.append_assoc]
      rw [htake, hdrop, htake2]
      have hlen : (f ++ (t ++ [c])).length = 5 := by
        simp [hf, ht]
      have hget : (f ++ (t ++ [c]))[4]? = some c := by
        rw [← List.append_assoc]
        have h4 : (f ++ t).length = 4 := by simp [hf, ht]
        rw [List.getElem?_append_right (by omega), h4]
        rfl
      simp [hlen, hget]

/-- Witness for C9 at the promotion move e7e8q. -/
theorem C9_uci_roundtrip_witness :
    uci_to_move (move_to_uci { fromSq := ['e', '7'], toSq := ['e', '8'], promotion := some 'q' }) =
      { fromSq := ['e', '7'], toSq := ['e', '8'], promotion := some 'q' } :=
  C9_uci_roundtrip { fromSq := ['e', '7'], toSq := ['e', '8'], promotion := some 'q' }
    (by decide) (by decide)

/-- C10: for every info line whose parsed raw score has a finite value, the
constructed `Info`'s exposed score keeps the raw type and is oriented to
White — equal to the raw side-to-move value when the FEN's side to move is
White and to its negation when it is Black — while `povScore` itself is the
raw parse, unchanged. -/
theorem C10_score_orientation (tokens : List String) (fen : List Char) (v : Int)
    (hv : (parsePovScore tokens).value = some v) :
    (mkInfoScore tokens fen).povScore = parsePovScore tokens
    ∧ (mkInfoScore tokens fen).score.kind = (parsePovScore tokens).kind
    ∧ (resolveTurn fen = Turn.white →
        (mkInfoScore tokens fen).score.value = some v)
    ∧ (resolveTurn fen = Turn.black →
        (mkInfoScore tokens fen).score.value = some (-v)) := by
  refine ⟨rfl, rfl, ?_, ?_⟩
  · intro hw
    simp [mkInfoScore, orientScore, hv, hw]
  · intro hb
    simp [mkInfoScore, orientScore, hv, hb]

/-- Witness for C10: the line `info score cp 13` analyzed on a position with
Black to move exposes −13 while the raw pov score stays +13. -/
theorem C10_score_orientation_witness :
    (mkInfoScore ["info", "score", "cp", "13"] ('8' :: '/' :: '8' :: ' ' :: 'b' :: [])).povScore =
      parsePovScore ["info", "score", "cp", "13"] ∧
    (mkInfoScore ["info", "score", "cp", "13"] ('8' :: '/' :: '8' :: ' ' :: 'b' :: [])).score.kind =
      (parsePovScore ["info", "score", "cp", "13"]).kind ∧
    (resolveTurn ('8' :: '/' :: '8' :: ' ' :: 'b' :: []) = Turn.white →
      (mkInfoScore ["info", "score", "cp", "13"] ('8' :: '/' :: '8' :: ' ' :: 'b' :: [])).score.value =
        some 13) ∧
    (resolveTurn ('8' :: '/' :: '8' :: ' ' :: 'b' :: []) = Turn.black →
      (mkInfoScore ["info", "score", "cp", "13"] ('8' :: '/' :: '8' :: ' ' :: 'b' :: [])).score.value =
        some (-13)) :=
  C10_score_orientation ["info", "score", "cp", "13"] ('8' :: '/' :: '8' :: ' ' :: 'b' :: [])
    13 (by decide)

end SmartChess
